import Mathlib

/-!
A shallow embedding of the cart/order transaction engine of the foodie-hub
repository.  The four PostgreSQL stored procedures defined last (and hence
authoritative) in `supabase/migrations/20250713120623_winter_spire.sql` —
`add_to_cart_with_quantity_check`, `update_cart_quantity_with_stock_check`,
`remove_from_cart_with_quantity_restore` and `place_order_with_cart_clear` —
are translated into pure Lean functions over an explicit database state.
Tables become lists of records, `SELECT ... INTO` becomes `List.find?`,
`UPDATE` becomes `List.map`, `DELETE` becomes `List.filter`, SQL joins become
`List.bind` over filters, and the `json_build_object` results become
association lists of string keys to a small JSON value type.  Generated uuids
are modelled by counters in the state.  Timestamps (`updated_at`,
`created_at`) carry no information relevant to the verified properties and
are omitted.
-/

/-- A JSON scalar value, as produced by `json_build_object`. -/
inductive JVal where
  | jbool (b : Bool)
  | jint (n : Int)
  | jrat (q : Rat)
  | jstr (s : String)
  deriving DecidableEq, Repr

/-- A JSON object: the ordered field list of a `json_build_object` call. -/
abbrev JObj := List (String × JVal)

/-- A row of the `menu_items` table (fields relevant to the core). -/
structure MenuItem where
  id : Nat
  name : String
  price : Rat
  quantity_available : Int
  deriving DecidableEq, Repr

/-- A row of the `cart_items` table. -/
structure CartItem where
  id : Nat
  user_id : Nat
  menu_item_id : Nat
  quantity : Int
  deriving DecidableEq, Repr

/-- A row of the `orders` table (fields relevant to the core). -/
structure Order where
  id : Nat
  user_id : Nat
  total_amount : Rat
  status : String
  payment_status : String
  deriving DecidableEq, Repr

/-- A row of the `order_items` table. -/
structure OrderItem where
  order_id : Nat
  menu_item_id : Nat
  quantity : Int
  price : Rat
  deriving DecidableEq, Repr

/-- The database state seen by the four stored procedures.  `next_cart_id`
and `next_order_id` model the uuid generator for inserted rows. -/
structure DB where
  menu_items : List MenuItem
  cart_items : List CartItem
  orders : List Order
  order_items : List OrderItem
  next_cart_id : Nat
  next_order_id : Nat
  deriving DecidableEq, Repr

/-- `add_to_cart_with_quantity_check(p_user_id, p_menu_item_id, p_quantity)`
from `20250713120623_winter_spire.sql`.  Looks up the menu item, reads the
caller's current cart quantity for it, rejects when stock is short, and
otherwise decrements `quantity_available` and upserts the cart line. -/
def add_to_cart_with_quantity_check (db : DB) (p_user_id p_menu_item_id : Nat)
    (p_quantity : Int) : DB × JObj :=
  match db.menu_items.find? (fun mi => mi.id == p_menu_item_id) with
  | none =>
      (db, [("success", .jbool false), ("error", .jstr "Menu item not found")])
  | some mi =>
      let v_available_quantity := mi.quantity_available
      let v_menu_item_name := mi.name
      let v_current_cart_quantity :=
        match db.cart_items.find?
            (fun ci => ci.user_id == p_user_id && ci.menu_item_id == p_menu_item_id) with
        | none => 0
        | some ci => ci.quantity
      if v_available_quantity < p_quantity then
        (db, [("success", .jbool false),
              ("error", .jstr ("Not enough stock available. Only " ++
                toString v_available_quantity ++ " items left."))])
      else
        let menu' := db.menu_items.map (fun m =>
          if m.id == p_menu_item_id then
            { m with quantity_available := m.quantity_available - p_quantity }
          else m)
        let conflict := db.cart_items.any
          (fun ci => ci.user_id == p_user_id && ci.menu_item_id == p_menu_item_id)
        let cart' :=
          if conflict then
            db.cart_items.map (fun ci =>
              if ci.user_id == p_user_id && ci.menu_item_id == p_menu_item_id then
                { ci with quantity := ci.quantity + p_quantity }
              else ci)
          else
            db.cart_items ++ [{ id := db.next_cart_id, user_id := p_user_id,
                                menu_item_id := p_menu_item_id,
                                quantity := v_current_cart_quantity + p_quantity }]
        ({ db with menu_items := menu', cart_items := cart',
                   next_cart_id := if conflict then db.next_cart_id else db.next_cart_id + 1 },
         [("success", .jbool true),
          ("message", .jstr (v_menu_item_name ++ " added to cart successfully!")),
          ("new_quantity", .jint (v_current_cart_quantity + p_quantity)),
          ("remaining_stock", .jint (v_available_quantity - p_quantity))])

/-- `update_cart_quantity_with_stock_check(p_user_id, p_cart_item_id,
p_new_quantity)` from `20250713120623_winter_spire.sql`.  Owner-checked
lookup joined with the menu item, stock check on a positive difference,
removal when the new quantity is non-positive, otherwise an in-place
update of the cart line and the available quantity. -/
def update_cart_quantity_with_stock_check (db : DB) (p_user_id p_cart_item_id : Nat)
    (p_new_quantity : Int) : DB × JObj :=
  match db.cart_items.find?
      (fun ci => ci.id == p_cart_item_id && ci.user_id == p_user_id) with
  | none =>
      (db, [("success", .jbool false), ("error", .jstr "Cart item not found")])
  | some ci =>
      match db.menu_items.find? (fun mi => mi.id == ci.menu_item_id) with
      | none =>
          (db, [("success", .jbool false), ("error", .jstr "Cart item not found")])
      | some mi =>
          let v_current_quantity := ci.quantity
          let v_menu_item_id := ci.menu_item_id
          let v_available_quantity := mi.quantity_available
          let v_menu_item_name := mi.name
          let v_quantity_diff := p_new_quantity - v_current_quantity
          if v_quantity_diff > 0 && v_available_quantity < v_quantity_diff then
            (db, [("success", .jbool false),
                  ("error", .jstr ("Not enough stock available. Only " ++
                    toString v_available_quantity ++ " items left."))])
          else if p_new_quantity ≤ 0 then
            let cart' := db.cart_items.filter
              (fun c => !(c.id == p_cart_item_id && c.user_id == p_user_id))
            let menu' := db.menu_items.map (fun m =>
              if m.id == v_menu_item_id then
                { m with quantity_available := m.quantity_available + v_current_quantity }
              else m)
            ({ db with cart_items := cart', menu_items := menu' },
             [("success", .jbool true),
              ("message", .jstr (v_menu_item_name ++ " removed from cart")),
              ("action", .jstr "removed")])
          else
            let cart' := db.cart_items.map (fun c =>
              if c.id == p_cart_item_id && c.user_id == p_user_id then
                { c with quantity := p_new_quantity }
              else c)
            let menu' := db.menu_items.map (fun m =>
              if m.id == v_menu_item_id then
                { m with quantity_available := m.quantity_available - v_quantity_diff }
              else m)
            ({ db with cart_items := cart', menu_items := menu' },
             [("success", .jbool true),
              ("message", .jstr (v_menu_item_name ++ " quantity updated successfully!")),
              ("new_quantity", .jint p_new_quantity),
              ("remaining_stock", .jint (v_available_quantity - v_quantity_diff))])

/-- `remove_from_cart_with_quantity_restore(p_user_id, p_cart_item_id)` from
`20250713120623_winter_spire.sql`.  Owner-checked lookup joined with the
menu item, then deletes the cart line and restores its quantity. -/
def remove_from_cart_with_quantity_restore (db : DB) (p_user_id p_cart_item_id : Nat) :
    DB × JObj :=
  match db.cart_items.find?
      (fun ci => ci.id == p_cart_item_id && ci.user_id == p_user_id) with
  | none =>
      (db, [("success", .jbool false), ("error", .jstr "Cart item not found")])
  | some ci =>
      match db.menu_items.find? (fun mi => mi.id == ci.menu_item_id) with
      | none =>
          (db, [("success", .jbool false), ("error", .jstr "Cart item not found")])
      | some mi =>
          let v_quantity := ci.quantity
          let v_menu_item_id := ci.menu_item_id
          let v_menu_item_name := mi.name
          let cart' := db.cart_items.filter
            (fun c => !(c.id == p_cart_item_id && c.user_id == p_user_id))
          let menu' := db.menu_items.map (fun m =>
            if m.id == v_menu_item_id then
              { m with quantity_available := m.quantity_available + v_quantity }
            else m)
          ({ db with cart_items := cart', menu_items := menu' },
           [("success", .jbool true),
            ("message", .jstr (v_menu_item_name ++ " removed from cart successfully!")),
            ("restored_quantity", .jint v_quantity)])

/-- `place_order_with_cart_clear(p_user_id)` from
`20250713120623_winter_spire.sql`.  Rejects an empty cart, computes the
total over the cart joined with the menu, inserts one order and one order
item per joined cart row, and clears the user's cart. -/
def place_order_with_cart_clear (db : DB) (p_user_id : Nat) : DB × JObj :=
  let userCart := db.cart_items.filter (fun ci => ci.user_id == p_user_id)
  let v_order_count : Nat := userCart.length
  if v_order_count = 0 then
    (db, [("success", .jbool false), ("error", .jstr "Cart is empty")])
  else
    let joined := userCart.flatMap (fun ci =>
      (db.menu_items.filter (fun mi => mi.id == ci.menu_item_id)).map (fun mi => (ci, mi)))
    let v_total_amount : Rat :=
      (joined.map (fun p => (p.1.quantity : Rat) * p.2.price)).sum
    let v_order_id := db.next_order_id
    let newOrder : Order :=
      { id := v_order_id, user_id := p_user_id, total_amount := v_total_amount,
        status := "pending", payment_status := "pending" }
    let newOrderItems : List OrderItem := joined.map (fun p =>
      { order_id := v_order_id, menu_item_id := p.1.menu_item_id,
        quantity := p.1.quantity, price := p.2.price })
    let cart' := db.cart_items.filter (fun ci => !(ci.user_id == p_user_id))
    ({ db with orders := db.orders ++ [newOrder],
               order_items := db.order_items ++ newOrderItems,
               cart_items := cart', next_order_id := db.next_order_id + 1 },
     [("success", .jbool true),
      ("message", .jstr "Order placed successfully!"),
      ("order_id", .jint v_order_id),
      ("total_amount", .jrat v_total_amount),
      ("item_count", .jint v_order_count)])

/-- One call through the external interface. -/
inductive Op where
  | addItem (user_id menu_item_id : Nat) (quantity : Int)
  | setQuantity (user_id cart_item_id : Nat) (new_quantity : Int)
  | removeItem (user_id cart_item_id : Nat)
  | checkout (user_id : Nat)
  deriving DecidableEq, Repr

/-- The stated input constraint of the external interface: `addItem` takes a
positive quantity (spec: `quantity(default 1, >0)`); the other operations
accept any arguments. -/
def Op.okInput : Op → Prop
  | .addItem _ _ q => 0 < q
  | .setQuantity _ _ _ => True
  | .removeItem _ _ => True
  | .checkout _ => True

/-- The state after one operation (the returned JSON is discarded). -/
def applyOp (db : DB) : Op → DB
  | .addItem u m q => (add_to_cart_with_quantity_check db u m q).1
  | .setQuantity u c q => (update_cart_quantity_with_stock_check db u c q).1
  | .removeItem u c => (remove_from_cart_with_quantity_restore db u c).1
  | .checkout u => (place_order_with_cart_clear db u).1

/-- The state after a sequence of operations, applied left to right. -/
def applyOps (db : DB) : List Op → DB
  | [] => db
  | op :: rest => applyOps (applyOp db op) rest

/-- Sum of an integer-valued function over a list. -/
def isum (l : List α) (f : α → Int) : Int := (l.map f).sum

/-- The `quantity_available` mass of the item with id `j` in a menu list. -/
def availSum (menu : List MenuItem) (j : Nat) : Int :=
  isum menu (fun m => if m.id = j then m.quantity_available else 0)

/-- Total quantity of item `j` reserved across the cart lines of a list. -/
def cartSum (cart : List CartItem) (j : Nat) : Int :=
  isum cart (fun c => if c.menu_item_id = j then c.quantity else 0)

/-- Total quantity of item `j` sold in non-cancelled orders: each order line
counts once per matching non-cancelled order row (the SQL join). -/
def soldSum (ois : List OrderItem) (os : List Order) (j : Nat) : Int :=
  isum ois (fun oi =>
    if oi.menu_item_id = j then
      oi.quantity *
        ((os.filter (fun o => o.id == oi.order_id && !(o.status == "cancelled"))).length : Int)
    else 0)

/-- The `quantity_available` mass of the item with id `j` (0 if absent). -/
def availOf (db : DB) (j : Nat) : Int := availSum db.menu_items j

/-- Total quantity of item `j` reserved across all users' cart lines. -/
def cartTotal (db : DB) (j : Nat) : Int := cartSum db.cart_items j

/-- Total quantity of item `j` appearing in lines of non-cancelled orders. -/
def soldTotal (db : DB) (j : Nat) : Int := soldSum db.order_items db.orders j

/-- The conserved stock measure of item `j`: available + reserved + sold. -/
def stockMeasure (db : DB) (j : Nat) : Int :=
  availOf db j + cartTotal db j + soldTotal db j

/-- The caller's current cart quantity for an item (0 when no line exists). -/
def cartQty (db : DB) (u i : Nat) : Int :=
  match db.cart_items.find? (fun ci => ci.user_id == u && ci.menu_item_id == i) with
  | none => 0
  | some ci => ci.quantity

/-- The current menu price of item `i` (0 if absent). -/
def menuPrice (db : DB) (i : Nat) : Rat :=
  match db.menu_items.find? (fun m => m.id == i) with
  | none => 0
  | some m => m.price

/-- Structural well-formedness of a database state: key uniqueness and
referential freshness facts guaranteed by the schema (primary keys, the
unique constraint on `(user_id, menu_item_id)`, foreign keys, uuid
generation). -/
structure WF (db : DB) : Prop where
  menu_nodup : (db.menu_items.map MenuItem.id).Nodup
  cart_id_nodup : (db.cart_items.map CartItem.id).Nodup
  cart_id_lt : ∀ c ∈ db.cart_items, c.id < db.next_cart_id
  cart_key_nodup : (db.cart_items.map (fun c => (c.user_id, c.menu_item_id))).Nodup
  cart_ref : ∀ c ∈ db.cart_items, ∃ m ∈ db.menu_items, m.id = c.menu_item_id
  order_id_lt : ∀ o ∈ db.orders, o.id < db.next_order_id
  oi_ref_lt : ∀ oi ∈ db.order_items, oi.order_id < db.next_order_id

/-- Full healthiness: well-formed, every cart line strictly positive, and
every available quantity non-negative. -/
structure Good (db : DB) : Prop where
  wf : WF db
  cart_pos : ∀ c ∈ db.cart_items, 0 < c.quantity
  avail_nonneg : ∀ m ∈ db.menu_items, 0 ≤ m.quantity_available

/-- A small concrete state: one menu item with five units in stock. -/
def dbW : DB :=
  { menu_items := [{ id := 10, name := "X", price := 4, quantity_available := 5 }],
    cart_items := [], orders := [], order_items := [],
    next_cart_id := 100, next_order_id := 200 }

/-- A second concrete state: user 1 owns cart line 50 for item 10. -/
def dbW2 : DB :=
  { menu_items := [{ id := 10, name := "X", price := 4, quantity_available := 5 }],
    cart_items := [{ id := 50, user_id := 1, menu_item_id := 10, quantity := 2 }],
    orders := [], order_items := [],
    next_cart_id := 51, next_order_id := 200 }

/-- The menu item found for an id (an arbitrary default when absent). -/
def itemOf (db : DB) (i : Nat) : MenuItem :=
  (db.menu_items.find? (fun m => m.id == i)).getD
    { id := 0, name := "", price := 0, quantity_available := 0 }

/-! ### Summation toolkit -/

theorem isum_nil (f : α → Int) : isum ([] : List α) f = 0 := rfl

theorem isum_cons (a : α) (l : List α) (f : α → Int) :
    isum (a :: l) f = f a + isum l f := by
  simp [isum]

theorem isum_append (l₁ l₂ : List α) (f : α → Int) :
    isum (l₁ ++ l₂) f = isum l₁ f + isum l₂ f := by
  simp [isum]

theorem isum_congr {l : List α} {f g : α → Int} (h : ∀ x ∈ l, f x = g x) :
    isum l f = isum l g := by
  unfold isum
  rw [List.map_congr_left h]

theorem isum_zero {l : List α} {f : α → Int} (h : ∀ x ∈ l, f x = 0) :
    isum l f = 0 := by
  induction l with
  | nil => rfl
  | cons a t ih =>
      rw [isum_cons, h a (List.mem_cons_self a t),
        ih (fun x hx => h x (List.mem_cons_of_mem a hx)), add_zero]

theorem isum_sub (l : List α) (f g : α → Int) :
    isum l (fun x => f x - g x) = isum l f - isum l g := by
  induction l with
  | nil => rfl
  | cons a t ih => rw [isum_cons, isum_cons, isum_cons, ih]; ring

theorem isum_add (l : List α) (f g : α → Int) :
    isum l (fun x => f x + g x) = isum l f + isum l g := by
  induction l with
  | nil => rfl
  | cons a t ih => rw [isum_cons, isum_cons, isum_cons, ih]; ring

theorem isum_map (g : β → α) (l : List β) (f : α → Int) :
    isum (l.map g) f = isum l (fun b => f (g b)) := by
  unfold isum
  rw [List.map_map]
  rfl

theorem isum_filter (l : List α) (p : α → Bool) (f : α → Int) :
    isum (l.filter p) f = isum l (fun x => if p x then f x else 0) := by
  induction l with
  | nil => rfl
  | cons a t ih =>
      by_cases h : p a <;> simp [List.filter_cons, h, isum_cons, ih]

theorem isum_filter_not (l : List α) (p : α → Bool) (f : α → Int) :
    isum (l.filter (fun x => !(p x))) f = isum l f - isum (l.filter p) f := by
  rw [isum_filter, isum_filter]
  have h : ∀ x ∈ l, (if !(p x) then f x else 0) = f x - (if p x then f x else 0) := by
    intro x _
    by_cases h : p x <;> simp [h]
  rw [isum_congr h, isum_sub]

theorem isum_flatMap (l : List β) (g : β → List α) (f : α → Int) :
    isum (l.flatMap g) f = isum l (fun b => isum (g b) f) := by
  induction l with
  | nil => rfl
  | cons a t ih => simp only [List.flatMap_cons, isum_append, isum_cons, ih]

/-- Summing an `if`-guarded contribution over a list whose keys are distinct
collapses to the single contribution of the element with the matching key. -/
theorem isum_key_unique {κ : Type} [DecidableEq κ] {l : List α} {key : α → κ}
    (hnd : (l.map key).Nodup) {c : α} (hc : c ∈ l) (f : α → Int) :
    isum l (fun x => if key x = key c then f x else 0) = f c := by
  induction l with
  | nil => cases hc
  | cons a t ih =>
      rw [List.map_cons, List.nodup_cons] at hnd
      rcases List.mem_cons.mp hc with h | h
      · subst h
        rw [isum_cons, if_pos rfl, isum_zero, add_zero]
        intro x hx
        rw [if_neg]
        intro hkey
        exact hnd.1 (hkey ▸ List.mem_map_of_mem key hx)
      · rw [isum_cons, if_neg, ih hnd.2 h, zero_add]
        intro hkey
        exact hnd.1 (hkey ▸ List.mem_map_of_mem key h)

/-- In a list with distinct keys, filtering for the key of a member yields
exactly that member. -/
theorem filter_key_singleton {κ : Type} [DecidableEq κ] [BEq κ] [LawfulBEq κ]
    {l : List α} {key : α → κ} (hnd : (l.map key).Nodup) {c : α} (hc : c ∈ l) :
    l.filter (fun x => key x == key c) = [c] := by
  induction l with
  | nil => cases hc
  | cons a t ih =>
      rw [List.map_cons, List.nodup_cons] at hnd
      rcases List.mem_cons.mp hc with h | h
      · subst h
        rw [List.filter_cons, if_pos (by simp)]
        have ht : t.filter (fun x => key x == key c) = [] := by
          apply List.filter_eq_nil_iff.mpr
          intro x hx hkey
          exact hnd.1 ((eq_of_beq hkey) ▸ List.mem_map_of_mem key hx)
        rw [ht]
      · rw [List.filter_cons, if_neg, ih hnd.2 h]
        simp only [beq_iff_eq]
        intro hkey
        exact hnd.1 (hkey ▸ List.mem_map_of_mem key h)

/-- In a list with distinct keys, `find?` by the key of a member yields
exactly that member. -/
theorem find?_key_unique {κ : Type} [DecidableEq κ] [BEq κ] [LawfulBEq κ]
    {l : List α} {key : α → κ} (hnd : (l.map key).Nodup) {c : α} (hc : c ∈ l) :
    l.find? (fun x => key x == key c) = some c := by
  induction l with
  | nil => cases hc
  | cons a t ih =>
      rw [List.map_cons, List.nodup_cons] at hnd
      rcases List.mem_cons.mp hc with h | h
      · subst h
        exact List.find?_cons_of_pos _ (by simp)
      · rw [List.find?_cons_of_neg, ih hnd.2 h]
        simp only [beq_iff_eq]
        intro hkey
        exact hnd.1 (hkey ▸ List.mem_map_of_mem key h)

/-! ### Effect of the SQL statements on the accounting sums -/

theorem availSum_map_sub (menu : List MenuItem)
    (hnd : (menu.map MenuItem.id).Nodup) {mi : MenuItem} (hmi : mi ∈ menu)
    {k : Nat} (hk : mi.id = k) (q : Int) (j : Nat) :
    availSum (menu.map (fun m =>
      if m.id == k then { m with quantity_available := m.quantity_available - q }
      else m)) j
      = availSum menu j - (if j = k then q else 0) := by
  unfold availSum
  rw [isum_map]
  have hpt : ∀ m ∈ menu,
      (if (if m.id == k then { m with quantity_available := m.quantity_available - q }
            else m).id = j
        then (if m.id == k then { m with quantity_available := m.quantity_available - q }
            else m).quantity_available else 0)
      = (if m.id = j then m.quantity_available else 0)
        - (if m.id = j ∧ m.id = k then q else 0) := by
    intro m _
    by_cases h1 : m.id = k
    · by_cases h2 : m.id = j
      · have hkj : k = j := h1 ▸ h2
        simp [h1, h2, hkj]
      · have hkj : ¬ k = j := fun e => h2 (h1.trans e)
        simp [h1, h2, hkj]
    · by_cases h2 : m.id = j
      · have hjk : ¬ j = k := fun e => h1 (h2.trans e)
        simp [h1, h2, hjk]
      · simp [h1, h2]
  rw [isum_congr hpt, isum_sub]
  congr 1
  by_cases hj : j = k
  · subst hj
    have hpt2 : ∀ m ∈ menu,
        (if m.id = j ∧ m.id = j then q else 0) = (if m.id = mi.id then q else 0) := by
      intro m _
      rw [hk]
      by_cases h : m.id = j <;> simp [h]
    rw [isum_congr hpt2, isum_key_unique hnd hmi (fun _ => q), if_pos rfl]
  · rw [if_neg hj, isum_zero]
    intro m _
    rw [if_neg]
    rintro ⟨h1, h2⟩
    exact hj (h1 ▸ h2)

theorem availSum_map_add (menu : List MenuItem)
    (hnd : (menu.map MenuItem.id).Nodup) {mi : MenuItem} (hmi : mi ∈ menu)
    {k : Nat} (hk : mi.id = k) (q : Int) (j : Nat) :
    availSum (menu.map (fun m =>
      if m.id == k then { m with quantity_available := m.quantity_available + q }
      else m)) j
      = availSum menu j + (if j = k then q else 0) := by
  unfold availSum
  rw [isum_map]
  have hpt : ∀ m ∈ menu,
      (if (if m.id == k then { m with quantity_available := m.quantity_available + q }
            else m).id = j
        then (if m.id == k then { m with quantity_available := m.quantity_available + q }
            else m).quantity_available else 0)
      = (if m.id = j then m.quantity_available else 0)
        + (if m.id = j ∧ m.id = k then q else 0) := by
    intro m _
    by_cases h1 : m.id = k
    · by_cases h2 : m.id = j
      · have hkj : k = j := h1 ▸ h2
        simp [h1, h2, hkj]
      · have hkj : ¬ k = j := fun e => h2 (h1.trans e)
        simp [h1, h2, hkj]
    · by_cases h2 : m.id = j
      · have hjk : ¬ j = k := fun e => h1 (h2.trans e)
        simp [h1, h2, hjk]
      · simp [h1, h2]
  rw [isum_congr hpt, isum_add]
  congr 1
  by_cases hj : j = k
  · subst hj
    have hpt2 : ∀ m ∈ menu,
        (if m.id = j ∧ m.id = j then q else 0) = (if m.id = mi.id then q else 0) := by
      intro m _
      rw [hk]
      by_cases h : m.id = j <;> simp [h]
    rw [isum_congr hpt2, isum_key_unique hnd hmi (fun _ => q), if_pos rfl]
  · rw [if_neg hj, isum_zero]
    intro m _
    rw [if_neg]
    rintro ⟨h1, h2⟩
    exact hj (h1 ▸ h2)

theorem cartSum_map_inc (cart : List CartItem)
    (hnd : (cart.map (fun c => (c.user_id, c.menu_item_id))).Nodup)
    {c : CartItem} (hc : c ∈ cart) {u i : Nat} (hu : c.user_id = u)
    (hi : c.menu_item_id = i) (q : Int) (j : Nat) :
    cartSum (cart.map (fun ci =>
      if ci.user_id == u && ci.menu_item_id == i then
        { ci with quantity := ci.quantity + q }
      else ci)) j
      = cartSum cart j + (if j = i then q else 0) := by
  unfold cartSum
  rw [isum_map]
  have hpt : ∀ x ∈ cart,
      (if (if x.user_id == u && x.menu_item_id == i then
            { x with quantity := x.quantity + q } else x).menu_item_id = j
        then (if x.user_id == u && x.menu_item_id == i then
            { x with quantity := x.quantity + q } else x).quantity else 0)
      = (if x.menu_item_id = j then x.quantity else 0)
        + (if (x.user_id, x.menu_item_id) = (c.user_id, c.menu_item_id)
            then (if x.menu_item_id = j then q else 0) else 0) := by
    intro x _
    by_cases h1 : x.user_id = u
    · by_cases h2 : x.menu_item_id = i
      · by_cases hij : i = j <;> simp [h1, h2, hu, hi, hij]
      · have hxc : ¬ (x.user_id, x.menu_item_id) = (c.user_id, c.menu_item_id) := by
          simp only [Prod.mk.injEq, not_and]
          intro _ hmid
          exact h2 (hmid.trans hi)
        simp [h1, h2, hxc]
        intro _ hmid _
        exact absurd (hmid.trans hi) h2
    · have hxc : ¬ (x.user_id, x.menu_item_id) = (c.user_id, c.menu_item_id) := by
        simp only [Prod.mk.injEq, not_and]
        intro huser
        exact absurd (huser.trans hu) h1
      simp [h1, hxc]
  rw [isum_congr hpt, isum_add,
    isum_key_unique hnd hc (fun x => if x.menu_item_id = j then q else 0)]
  congr 1
  by_cases h : j = i
  · rw [if_pos h, if_pos (hi.trans h.symm)]
  · rw [if_neg h, if_neg]
    rw [hi]
    exact fun e => h e.symm

theorem cartSum_append_one (cart : List CartItem) (nc : CartItem) (j : Nat) :
    cartSum (cart ++ [nc]) j
      = cartSum cart j + (if nc.menu_item_id = j then nc.quantity else 0) := by
  unfold cartSum
  rw [isum_append, isum_cons, isum_nil, add_zero]

theorem cartSum_map_set (cart : List CartItem)
    (hnd : (cart.map CartItem.id).Nodup)
    {c : CartItem} (hc : c ∈ cart) {cid u : Nat} (hid : c.id = cid)
    (hu : c.user_id = u) (newq : Int) (j : Nat) :
    cartSum (cart.map (fun x =>
      if x.id == cid && x.user_id == u then { x with quantity := newq } else x)) j
      = cartSum cart j + (if c.menu_item_id = j then newq - c.quantity else 0) := by
  unfold cartSum
  rw [isum_map]
  have hpt : ∀ x ∈ cart,
      (if (if x.id == cid && x.user_id == u then
            { x with quantity := newq } else x).menu_item_id = j
        then (if x.id == cid && x.user_id == u then
            { x with quantity := newq } else x).quantity else 0)
      = (if x.menu_item_id = j then x.quantity else 0)
        + (if x.id = c.id
            then (if x.menu_item_id = j then newq - x.quantity else 0) else 0) := by
    intro x hx
    by_cases h1 : x.id = c.id
    · have hxc : x = c := List.inj_on_of_nodup_map hnd hx hc h1
      subst hxc
      by_cases h3 : x.menu_item_id = j <;> simp [hid, hu, h1, h3]
    · have hne : ¬ (x.id = cid ∧ x.user_id = u) := by
        rintro ⟨e, _⟩
        exact h1 (e.trans hid.symm)
      by_cases h3 : x.menu_item_id = j <;>
        simp [h1, h3, hne, Bool.and_eq_true, beq_iff_eq]
  rw [isum_congr hpt, isum_add,
    isum_key_unique hnd hc (fun x => if x.menu_item_id = j then newq - x.quantity else 0)]

theorem cartSum_erase (cart : List CartItem)
    (hnd : (cart.map CartItem.id).Nodup)
    {c : CartItem} (hc : c ∈ cart) {cid u : Nat} (hid : c.id = cid)
    (hu : c.user_id = u) (j : Nat) :
    cartSum (cart.filter (fun x => !(x.id == cid && x.user_id == u))) j
      = cartSum cart j - (if c.menu_item_id = j then c.quantity else 0) := by
  unfold cartSum
  rw [isum_filter_not]
  congr 1
  have hfc : cart.filter (fun x => x.id == cid && x.user_id == u)
      = cart.filter (fun x => x.id == c.id) := by
    apply List.filter_congr
    intro x hx
    by_cases h1 : x.id = c.id
    · have hxc : x = c := List.inj_on_of_nodup_map hnd hx hc h1
      subst hxc
      simp [hid, hu, h1]
    · have hne : ¬ x.id = cid := fun e => h1 (e.trans hid.symm)
      have hb1 : (x.id == cid) = false := by simp [hne]
      have hb2 : (x.id == c.id) = false := by simp [h1]
      rw [hb1, hb2, Bool.false_and]
  rw [hfc, filter_key_singleton hnd hc, isum_cons, isum_nil, add_zero]

theorem cartSum_clear_user (cart : List CartItem) (u : Nat) (j : Nat) :
    cartSum (cart.filter (fun x => !(x.user_id == u))) j
      = cartSum cart j
        - isum (cart.filter (fun x => x.user_id == u))
            (fun x => if x.menu_item_id = j then x.quantity else 0) := by
  unfold cartSum
  rw [isum_filter_not]

theorem soldSum_append_fresh (ois newOis : List OrderItem) (os : List Order) (o : Order)
    (hold : ∀ oi ∈ ois, oi.order_id ≠ o.id)
    (hnew : ∀ oi ∈ newOis, oi.order_id = o.id)
    (hos : ∀ x ∈ os, x.id ≠ o.id)
    (hstat : o.status ≠ "cancelled") (j : Nat) :
    soldSum (ois ++ newOis) (os ++ [o]) j
      = soldSum ois os j
        + isum newOis (fun oi => if oi.menu_item_id = j then oi.quantity else 0) := by
  unfold soldSum
  rw [isum_append]
  congr 1
  · apply isum_congr
    intro oi hoi
    have hfo : (os ++ [o]).filter (fun x => x.id == oi.order_id && !(x.status == "cancelled"))
        = os.filter (fun x => x.id == oi.order_id && !(x.status == "cancelled")) := by
      rw [List.filter_append]
      have ho : [o].filter (fun x => x.id == oi.order_id && !(x.status == "cancelled")) = [] := by
        have hb : (o.id == oi.order_id) = false := by
          simp only [beq_eq_false_iff_ne, ne_eq]
          exact fun e => (hold oi hoi) e.symm
        simp [List.filter, hb]
      rw [ho, List.append_nil]
    rw [hfo]
  · apply isum_congr
    intro oi hoi
    have hfo : (os ++ [o]).filter
        (fun x => x.id == oi.order_id && !(x.status == "cancelled")) = [o] := by
      rw [List.filter_append]
      have h1 : os.filter (fun x => x.id == oi.order_id && !(x.status == "cancelled")) = [] := by
        apply List.filter_eq_nil_iff.mpr
        intro x hx
        have hb : (x.id == oi.order_id) = false := by
          simp only [beq_eq_false_iff_ne, ne_eq]
          rw [hnew oi hoi]
          exact hos x hx
        simp [hb]
      have h2 : [o].filter (fun x => x.id == oi.order_id && !(x.status == "cancelled")) = [o] := by
        have hb : (o.id == oi.order_id) = true := by simp [hnew oi hoi]
        have hs : (o.status == "cancelled") = false := by simp [hstat]
        simp [List.filter, hb, hs]
      rw [h1, h2, List.nil_append]
    rw [hfo]
    by_cases hj : oi.menu_item_id = j <;> simp [hj]

/-! ### Preservation of the stock measure by each operation -/

theorem stockMeasure_add (db : DB) (u i : Nat) (q : Int) (h : WF db) (j : Nat) :
    stockMeasure (add_to_cart_with_quantity_check db u i q).1 j = stockMeasure db j := by
  unfold add_to_cart_with_quantity_check
  cases hfind : db.menu_items.find? (fun mi => mi.id == i) with
  | none => rfl
  | some mi =>
    have hmem : mi ∈ db.menu_items := List.mem_of_find?_eq_some hfind
    have hmi : mi.id = i := by simpa using List.find?_some hfind
    dsimp only
    by_cases hstock : mi.quantity_available < q
    · rw [if_pos hstock]
    · rw [if_neg hstock]
      by_cases hconf : db.cart_items.any
          (fun ci => ci.user_id == u && ci.menu_item_id == i) = true
      · rw [if_pos hconf]
        obtain ⟨c, hc, hp⟩ := List.any_eq_true.mp hconf
        have hcu : c.user_id = u := by
          have := (Bool.and_eq_true _ _).mp hp
          simpa using this.1
        have hci : c.menu_item_id = i := by
          have := (Bool.and_eq_true _ _).mp hp
          simpa using this.2
        unfold stockMeasure availOf cartTotal soldTotal
        dsimp only
        rw [availSum_map_sub db.menu_items h.menu_nodup hmem hmi q j,
          cartSum_map_inc db.cart_items h.cart_key_nodup hc hcu hci q j]
        rcases eq_or_ne j i with hj | hj
        · subst hj
          simp only [if_pos rfl]
          ring_nf
        · simp only [if_neg hj, if_neg (Ne.symm hj)]
          ring_nf
      · rw [if_neg hconf]
        have hnone : db.cart_items.find?
            (fun ci => ci.user_id == u && ci.menu_item_id == i) = none := by
          rw [List.find?_eq_none]
          intro x hx
          intro hp
          exact hconf (List.any_eq_true.mpr ⟨x, hx, hp⟩)
        rw [hnone]
        unfold stockMeasure availOf cartTotal soldTotal
        dsimp only
        rw [availSum_map_sub db.menu_items h.menu_nodup hmem hmi q j,
          cartSum_append_one]
        dsimp only
        rcases eq_or_ne j i with hj | hj
        · subst hj
          simp only [if_pos rfl]
          ring_nf
        · simp only [if_neg hj, if_neg (Ne.symm hj)]
          ring_nf

theorem stockMeasure_update (db : DB) (u cid : Nat) (newq : Int) (h : WF db) (j : Nat) :
    stockMeasure (update_cart_quantity_with_stock_check db u cid newq).1 j
      = stockMeasure db j := by
  unfold update_cart_quantity_with_stock_check
  cases hfind : db.cart_items.find? (fun x => x.id == cid && x.user_id == u) with
  | none => rfl
  | some ci =>
    dsimp only
    cases hfind2 : db.menu_items.find? (fun mi => mi.id == ci.menu_item_id) with
    | none => rfl
    | some mi =>
      have hcmem : ci ∈ db.cart_items := List.mem_of_find?_eq_some hfind
      have hcp := List.find?_some hfind
      have hcid : ci.id = cid := by
        have := (Bool.and_eq_true _ _).mp hcp
        simpa using this.1
      have hcu : ci.user_id = u := by
        have := (Bool.and_eq_true _ _).mp hcp
        simpa using this.2
      have hmem2 : mi ∈ db.menu_items := List.mem_of_find?_eq_some hfind2
      have hmi2 : mi.id = ci.menu_item_id := by simpa using List.find?_some hfind2
      dsimp only
      by_cases hg : (newq - ci.quantity > 0 && mi.quantity_available < newq - ci.quantity) = true
      · rw [if_pos hg]
      · rw [if_neg hg]
        by_cases hz : newq ≤ 0
        · rw [if_pos hz]
          unfold stockMeasure availOf cartTotal soldTotal
          dsimp only
          rw [availSum_map_add db.menu_items h.menu_nodup hmem2 hmi2 ci.quantity j,
            cartSum_erase db.cart_items h.cart_id_nodup hcmem hcid hcu j]
          rcases eq_or_ne j ci.menu_item_id with hj | hj
          · subst hj
            simp only [if_pos rfl]
            ring_nf
          · simp only [if_neg hj, if_neg (Ne.symm hj)]
            ring_nf
        · rw [if_neg hz]
          unfold stockMeasure availOf cartTotal soldTotal
          dsimp only
          rw [availSum_map_sub db.menu_items h.menu_nodup hmem2 hmi2 (newq - ci.quantity) j,
            cartSum_map_set db.cart_items h.cart_id_nodup hcmem hcid hcu newq j]
          rcases eq_or_ne j ci.menu_item_id with hj | hj
          · subst hj
            simp only [if_pos rfl]
            ring_nf
          · simp only [if_neg hj, if_neg (Ne.symm hj)]
            ring_nf

theorem stockMeasure_remove (db : DB) (u cid : Nat) (h : WF db) (j : Nat) :
    stockMeasure (remove_from_cart_with_quantity_restore db u cid).1 j
      = stockMeasure db j := by
  unfold remove_from_cart_with_quantity_restore
  cases hfind : db.cart_items.find? (fun x => x.id == cid && x.user_id == u) with
  | none => rfl
  | some ci =>
    dsimp only
    cases hfind2 : db.menu_items.find? (fun mi => mi.id == ci.menu_item_id) with
    | none => rfl
    | some mi =>
      have hcmem : ci ∈ db.cart_items := List.mem_of_find?_eq_some hfind
      have hcp := List.find?_some hfind
      have hcid : ci.id = cid := by
        have := (Bool.and_eq_true _ _).mp hcp
        simpa using this.1
      have hcu : ci.user_id = u := by
        have := (Bool.and_eq_true _ _).mp hcp
        simpa using this.2
      have hmem2 : mi ∈ db.menu_items := List.mem_of_find?_eq_some hfind2
      have hmi2 : mi.id = ci.menu_item_id := by simpa using List.find?_some hfind2
      unfold stockMeasure availOf cartTotal soldTotal
      dsimp only
      rw [availSum_map_add db.menu_items h.menu_nodup hmem2 hmi2 ci.quantity j,
        cartSum_erase db.cart_items h.cart_id_nodup hcmem hcid hcu j]
      rcases eq_or_ne j ci.menu_item_id with hj | hj
      · subst hj
        simp only [if_pos rfl]
        ring_nf
      · simp only [if_neg hj, if_neg (Ne.symm hj)]
        ring_nf

theorem stockMeasure_checkout (db : DB) (u : Nat) (h : WF db) (j : Nat) :
    stockMeasure (place_order_with_cart_clear db u).1 j = stockMeasure db j := by
  unfold place_order_with_cart_clear
  by_cases hlen : (db.cart_items.filter (fun ci => ci.user_id == u)).length = 0
  · rw [if_pos hlen]
  · rw [if_neg hlen]
    unfold stockMeasure availOf cartTotal soldTotal
    dsimp only
    rw [soldSum_append_fresh db.order_items _ db.orders _
      (fun oi hoi => Nat.ne_of_lt (h.oi_ref_lt oi hoi))
      (by
        intro oi hoi
        obtain ⟨p, _, hp⟩ := List.mem_map.mp hoi
        rw [← hp])
      (fun x hx => Nat.ne_of_lt (h.order_id_lt x hx))
      (fun e => (show ¬ ("pending" : String) = "cancelled" by decide) e) j]
    rw [cartSum_clear_user db.cart_items u j]
    rw [isum_map]
    simp only [isum_flatMap, isum_map]
    have hinner : ∀ ci ∈ db.cart_items.filter (fun x => x.user_id == u),
        isum (db.menu_items.filter (fun mi => mi.id == ci.menu_item_id))
            (fun mi => if (ci, mi).1.menu_item_id = j then (ci, mi).1.quantity else 0)
          = (if ci.menu_item_id = j then ci.quantity else 0) := by
      intro ci hci
      obtain ⟨m, hm, hmid⟩ := h.cart_ref ci (List.mem_filter.mp hci).1
      have hfs : db.menu_items.filter (fun mi => mi.id == ci.menu_item_id) = [m] := by
        rw [← hmid]
        exact filter_key_singleton h.menu_nodup hm
      rw [hfs, isum_cons, isum_nil, add_zero]
    rw [isum_congr hinner]
    ring_nf

/-! ### Preservation of well-formedness by each operation -/

/-- Mapping a key-preserving function over a list keeps the keys nodup. -/
theorem nodup_map_of_pres {α κ : Type} {l : List α} (f : α → α) (key : α → κ)
    (hpres : ∀ x, key (f x) = key x) (h : (l.map key).Nodup) :
    ((l.map f).map key).Nodup := by
  rw [List.map_map]
  have hmc : l.map (key ∘ f) = l.map key :=
    List.map_congr_left (fun x _ => hpres x)
  rw [hmc]
  exact h

theorem WF_add (db : DB) (u i : Nat) (q : Int) (h : WF db) :
    WF (add_to_cart_with_quantity_check db u i q).1 := by
  unfold add_to_cart_with_quantity_check
  cases hfind : db.menu_items.find? (fun mi => mi.id == i) with
  | none => exact h
  | some mi =>
    dsimp only
    by_cases hstock : mi.quantity_available < q
    · rw [if_pos hstock]
      exact h
    · rw [if_neg hstock]
      have hmidpres : ∀ m : MenuItem,
          (if m.id == i then { m with quantity_available := m.quantity_available - q }
            else m).id = m.id := by
        intro m
        by_cases hm : m.id = i <;> simp [hm]
      have hmenu_ref : ∀ mid : Nat, (∃ m ∈ db.menu_items, m.id = mid) →
          ∃ m' ∈ db.menu_items.map (fun m =>
            if m.id == i then { m with quantity_available := m.quantity_available - q }
            else m), m'.id = mid := by
        rintro mid ⟨m, hm, hmid⟩
        exact ⟨_, List.mem_map_of_mem _ hm, (hmidpres m).trans hmid⟩
      by_cases hconf : db.cart_items.any
          (fun ci => ci.user_id == u && ci.menu_item_id == i) = true
      · rw [if_pos hconf, if_pos hconf]
        have hcidpres : ∀ c : CartItem,
            (if c.user_id == u && c.menu_item_id == i then
              { c with quantity := c.quantity + q } else c).id = c.id := by
          intro c
          by_cases hc : (c.user_id == u && c.menu_item_id == i) = true <;> simp [hc]
        have hckeypres : ∀ c : CartItem,
            ((if c.user_id == u && c.menu_item_id == i then
              { c with quantity := c.quantity + q } else c).user_id,
             (if c.user_id == u && c.menu_item_id == i then
              { c with quantity := c.quantity + q } else c).menu_item_id)
            = (c.user_id, c.menu_item_id) := by
          intro c
          by_cases hc : (c.user_id == u && c.menu_item_id == i) = true <;> simp [hc]
        refine ⟨?_, ?_, ?_, ?_, ?_, ?_, ?_⟩
        · dsimp only
          exact nodup_map_of_pres _ MenuItem.id hmidpres h.menu_nodup
        · dsimp only
          exact nodup_map_of_pres _ CartItem.id hcidpres h.cart_id_nodup
        · dsimp only
          intro c hc
          obtain ⟨c₀, hc₀, rfl⟩ := List.mem_map.mp hc
          rw [hcidpres c₀]
          exact h.cart_id_lt c₀ hc₀
        · dsimp only
          exact nodup_map_of_pres _ (fun c : CartItem => (c.user_id, c.menu_item_id)) hckeypres
            h.cart_key_nodup
        · dsimp only
          intro c hc
          obtain ⟨c₀, hc₀, rfl⟩ := List.mem_map.mp hc
          have hmid : (if c₀.user_id == u && c₀.menu_item_id == i then
              { c₀ with quantity := c₀.quantity + q } else c₀).menu_item_id
              = c₀.menu_item_id := congrArg Prod.snd (hckeypres c₀)
          rw [hmid]
          exact hmenu_ref c₀.menu_item_id (h.cart_ref c₀ hc₀)
        · dsimp only
          exact h.order_id_lt
        · dsimp only
          exact h.oi_ref_lt
      · rw [if_neg hconf, if_neg hconf]
        have hnokey : ∀ c ∈ db.cart_items, ¬ (c.user_id = u ∧ c.menu_item_id = i) := by
          intro c hc hk
          exact hconf (List.any_eq_true.mpr ⟨c, hc, by simp [hk.1, hk.2]⟩)
        refine ⟨?_, ?_, ?_, ?_, ?_, ?_, ?_⟩
        · dsimp only
          exact nodup_map_of_pres _ MenuItem.id hmidpres h.menu_nodup
        · dsimp only
          rw [List.map_append]
          rw [List.nodup_append]
          refine ⟨h.cart_id_nodup, List.nodup_singleton _, ?_⟩
          intro a ha hb
          simp only [List.map_cons, List.map_nil, List.mem_singleton] at hb
          obtain ⟨c₀, hc₀, rfl⟩ := List.mem_map.mp ha
          exact absurd (hb ▸ h.cart_id_lt c₀ hc₀) (lt_irrefl _)
        · dsimp only
          intro c hc
          rcases List.mem_append.mp hc with hcl | hcr
          · exact Nat.lt_succ_of_lt (h.cart_id_lt c hcl)
          · simp only [List.mem_singleton] at hcr
            subst hcr
            exact Nat.lt_succ_self _
        · dsimp only
          rw [List.map_append]
          rw [List.nodup_append]
          refine ⟨h.cart_key_nodup, List.nodup_singleton _, ?_⟩
          intro a ha hb
          simp only [List.map_cons, List.map_nil, List.mem_singleton] at hb
          obtain ⟨c₀, hc₀, rfl⟩ := List.mem_map.mp ha
          exact hnokey c₀ hc₀ ⟨congrArg Prod.fst hb, congrArg Prod.snd hb⟩
        · dsimp only
          intro c hc
          rcases List.mem_append.mp hc with hcl | hcr
          · exact hmenu_ref c.menu_item_id (h.cart_ref c hcl)
          · simp only [List.mem_singleton] at hcr
            subst hcr
            refine hmenu_ref i ?_
            refine ⟨mi, List.mem_of_find?_eq_some hfind, ?_⟩
            simpa using List.find?_some hfind
        · dsimp only
          exact h.order_id_lt
        · dsimp only
          exact h.oi_ref_lt

theorem WF_update (db : DB) (u cid : Nat) (newq : Int) (h : WF db) :
    WF (update_cart_quantity_with_stock_check db u cid newq).1 := by
  unfold update_cart_quantity_with_stock_check
  cases hfind : db.cart_items.find? (fun x => x.id == cid && x.user_id == u) with
  | none => exact h
  | some ci =>
    dsimp only
    cases hfind2 : db.menu_items.find? (fun mi => mi.id == ci.menu_item_id) with
    | none => exact h
    | some mi =>
      dsimp only
      have hmidpres : ∀ δ : Int, ∀ m : MenuItem,
          (if m.id == ci.menu_item_id then
            { m with quantity_available := m.quantity_available + δ }
            else m).id = m.id := by
        intro δ m
        by_cases hm : m.id = ci.menu_item_id <;> simp [hm]
      have hmidpres' : ∀ δ : Int, ∀ m : MenuItem,
          (if m.id == ci.menu_item_id then
            { m with quantity_available := m.quantity_available - δ }
            else m).id = m.id := by
        intro δ m
        by_cases hm : m.id = ci.menu_item_id <;> simp [hm]
      have hmenu_ref : ∀ (f : MenuItem → MenuItem), (∀ m, (f m).id = m.id) →
          ∀ mid : Nat, (∃ m ∈ db.menu_items, m.id = mid) →
          ∃ m' ∈ db.menu_items.map f, m'.id = mid := by
        rintro f hf mid ⟨m, hm, hmid⟩
        exact ⟨_, List.mem_map_of_mem _ hm, (hf m).trans hmid⟩
      by_cases hg : (newq - ci.quantity > 0 && mi.quantity_available < newq - ci.quantity) = true
      · rw [if_pos hg]
        exact h
      · rw [if_neg hg]
        by_cases hz : newq ≤ 0
        · rw [if_pos hz]
          refine ⟨?_, ?_, ?_, ?_, ?_, ?_, ?_⟩
          · dsimp only
            exact nodup_map_of_pres _ MenuItem.id (hmidpres ci.quantity) h.menu_nodup
          · dsimp only
            exact List.Nodup.sublist ((List.filter_sublist _).map _) h.cart_id_nodup
          · dsimp only
            intro c hc
            exact h.cart_id_lt c (List.mem_of_mem_filter hc)
          · dsimp only
            exact List.Nodup.sublist ((List.filter_sublist _).map _) h.cart_key_nodup
          · dsimp only
            intro c hc
            exact hmenu_ref _ (hmidpres ci.quantity) c.menu_item_id
              (h.cart_ref c (List.mem_of_mem_filter hc))
          · dsimp only
            exact h.order_id_lt
          · dsimp only
            exact h.oi_ref_lt
        · rw [if_neg hz]
          have hcidpres : ∀ c : CartItem,
              (if c.id == cid && c.user_id == u then
                { c with quantity := newq } else c).id = c.id := by
            intro c
            by_cases hc : (c.id == cid && c.user_id == u) = true <;> simp [hc]
          have hckeypres : ∀ c : CartItem,
              ((if c.id == cid && c.user_id == u then
                { c with quantity := newq } else c).user_id,
               (if c.id == cid && c.user_id == u then
                { c with quantity := newq } else c).menu_item_id)
              = (c.user_id, c.menu_item_id) := by
            intro c
            by_cases hc : (c.id == cid && c.user_id == u) = true <;> simp [hc]
          refine ⟨?_, ?_, ?_, ?_, ?_, ?_, ?_⟩
          · dsimp only
            exact nodup_map_of_pres _ MenuItem.id (hmidpres' (newq - ci.quantity)) h.menu_nodup
          · dsimp only
            exact nodup_map_of_pres _ CartItem.id hcidpres h.cart_id_nodup
          · dsimp only
            intro c hc
            obtain ⟨c₀, hc₀, rfl⟩ := List.mem_map.mp hc
            rw [hcidpres c₀]
            exact h.cart_id_lt c₀ hc₀
          · dsimp only
            exact nodup_map_of_pres _ (fun c : CartItem => (c.user_id, c.menu_item_id))
              hckeypres h.cart_key_nodup
          · dsimp only
            intro c hc
            obtain ⟨c₀, hc₀, rfl⟩ := List.mem_map.mp hc
            have hmid : (if c₀.id == cid && c₀.user_id == u then
                { c₀ with quantity := newq } else c₀).menu_item_id = c₀.menu_item_id :=
              congrArg Prod.snd (hckeypres c₀)
            rw [hmid]
            exact hmenu_ref _ (hmidpres' (newq - ci.quantity)) c₀.menu_item_id
              (h.cart_ref c₀ hc₀)
          · dsimp only
            exact h.order_id_lt
          · dsimp only
            exact h.oi_ref_lt

theorem WF_remove (db : DB) (u cid : Nat) (h : WF db) :
    WF (remove_from_cart_with_quantity_restore db u cid).1 := by
  unfold remove_from_cart_with_quantity_restore
  cases hfind : db.cart_items.find? (fun x => x.id == cid && x.user_id == u) with
  | none => exact h
  | some ci =>
    dsimp only
    cases hfind2 : db.menu_items.find? (fun mi => mi.id == ci.menu_item_id) with
    | none => exact h
    | some mi =>
      dsimp only
      have hmidpres : ∀ m : MenuItem,
          (if m.id == ci.menu_item_id then
            { m with quantity_available := m.quantity_available + ci.quantity }
            else m).id = m.id := by
        intro m
        by_cases hm : m.id = ci.menu_item_id <;> simp [hm]
      refine ⟨?_, ?_, ?_, ?_, ?_, ?_, ?_⟩
      · dsimp only
        exact nodup_map_of_pres _ MenuItem.id hmidpres h.menu_nodup
      · dsimp only
        exact List.Nodup.sublist ((List.filter_sublist _).map _) h.cart_id_nodup
      · dsimp only
        intro c hc
        exact h.cart_id_lt c (List.mem_of_mem_filter hc)
      · dsimp only
        exact List.Nodup.sublist ((List.filter_sublist _).map _) h.cart_key_nodup
      · dsimp only
        intro c hc
        obtain ⟨m, hm, hmid⟩ := h.cart_ref c (List.mem_of_mem_filter hc)
        exact ⟨_, List.mem_map_of_mem _ hm, (hmidpres m).trans hmid⟩
      · dsimp only
        exact h.order_id_lt
      · dsimp only
        exact h.oi_ref_lt

theorem WF_checkout (db : DB) (u : Nat) (h : WF db) :
    WF (place_order_with_cart_clear db u).1 := by
  unfold place_order_with_cart_clear
  by_cases hlen : (db.cart_items.filter (fun ci => ci.user_id == u)).length = 0
  · rw [if_pos hlen]
    exact h
  · rw [if_neg hlen]
    refine ⟨?_, ?_, ?_, ?_, ?_, ?_, ?_⟩
    · dsimp only
      exact h.menu_nodup
    · dsimp only
      exact List.Nodup.sublist ((List.filter_sublist _).map _) h.cart_id_nodup
    · dsimp only
      intro c hc
      exact h.cart_id_lt c (List.mem_of_mem_filter hc)
    · dsimp only
      exact List.Nodup.sublist ((List.filter_sublist _).map _) h.cart_key_nodup
    · dsimp only
      intro c hc
      exact h.cart_ref c (List.mem_of_mem_filter hc)
    · dsimp only
      intro o ho
      rcases List.mem_append.mp ho with hol | hor
      · exact Nat.lt_succ_of_lt (h.order_id_lt o hol)
      · simp only [List.mem_singleton] at hor
        subst hor
        exact Nat.lt_succ_self _
    · dsimp only
      intro oi hoi
      rcases List.mem_append.mp hoi with hol | hor
      · exact Nat.lt_succ_of_lt (h.oi_ref_lt oi hol)
      · obtain ⟨p, _, rfl⟩ := List.mem_map.mp hor
        exact Nat.lt_succ_self _

/-! ### Preservation of positivity and non-negativity -/

theorem Good_add (db : DB) (u i : Nat) (q : Int) (hq : 0 < q) (h : Good db) :
    Good (add_to_cart_with_quantity_check db u i q).1 := by
  refine ⟨WF_add db u i q h.wf, ?_, ?_⟩
  · unfold add_to_cart_with_quantity_check
    cases hfind : db.menu_items.find? (fun mi => mi.id == i) with
    | none => exact h.cart_pos
    | some mi =>
      dsimp only
      by_cases hstock : mi.quantity_available < q
      · rw [if_pos hstock]
        exact h.cart_pos
      · rw [if_neg hstock]
        by_cases hconf : db.cart_items.any
            (fun ci => ci.user_id == u && ci.menu_item_id == i) = true
        · rw [if_pos hconf]
          intro c hc
          obtain ⟨c₀, hc₀, rfl⟩ := List.mem_map.mp hc
          by_cases hk : (c₀.user_id == u && c₀.menu_item_id == i) = true
          · rw [if_pos hk]
            have := h.cart_pos c₀ hc₀
            simp only [gt_iff_lt]
            omega
          · rw [if_neg hk]
            exact h.cart_pos c₀ hc₀
        · rw [if_neg hconf]
          have hnone : db.cart_items.find?
              (fun ci => ci.user_id == u && ci.menu_item_id == i) = none := by
            rw [List.find?_eq_none]
            intro x hx hp
            exact hconf (List.any_eq_true.mpr ⟨x, hx, hp⟩)
          rw [hnone]
          intro c hc
          rcases List.mem_append.mp hc with hcl | hcr
          · exact h.cart_pos c hcl
          · simp only [List.mem_singleton] at hcr
            subst hcr
            simpa using hq
  · unfold add_to_cart_with_quantity_check
    cases hfind : db.menu_items.find? (fun mi => mi.id == i) with
    | none => exact h.avail_nonneg
    | some mi =>
      dsimp only
      by_cases hstock : mi.quantity_available < q
      · rw [if_pos hstock]
        exact h.avail_nonneg
      · rw [if_neg hstock]
        have hmain : ∀ m ∈ db.menu_items.map (fun m =>
            if m.id == i then { m with quantity_available := m.quantity_available - q }
            else m), 0 ≤ m.quantity_available := by
          intro m hm
          obtain ⟨m₀, hm₀, rfl⟩ := List.mem_map.mp hm
          by_cases hk : m₀.id = i
          · have hm₀mi : m₀ = mi := by
              apply List.inj_on_of_nodup_map h.wf.menu_nodup hm₀
                (List.mem_of_find?_eq_some hfind)
              rw [hk]
              have hmiid : mi.id = i := by simpa using List.find?_some hfind
              exact hmiid.symm
            subst hm₀mi
            rw [if_pos (by simpa using hk)]
            simp only
            omega
          · rw [if_neg (by simpa using hk)]
            exact h.avail_nonneg m₀ hm₀
        by_cases hconf : db.cart_items.any
            (fun ci => ci.user_id == u && ci.menu_item_id == i) = true
        · rw [if_pos hconf]
          exact hmain
        · rw [if_neg hconf]
          exact hmain

theorem Good_update (db : DB) (u cid : Nat) (newq : Int) (h : Good db) :
    Good (update_cart_quantity_with_stock_check db u cid newq).1 := by
  refine ⟨WF_update db u cid newq h.wf, ?_, ?_⟩
  · unfold update_cart_quantity_with_stock_check
    cases hfind : db.cart_items.find? (fun x => x.id == cid && x.user_id == u) with
    | none => exact h.cart_pos
    | some ci =>
      dsimp only
      cases hfind2 : db.menu_items.find? (fun mi => mi.id == ci.menu_item_id) with
      | none => exact h.cart_pos
      | some mi =>
        dsimp only
        by_cases hg : (newq - ci.quantity > 0 && mi.quantity_available < newq - ci.quantity) = true
        · rw [if_pos hg]
          exact h.cart_pos
        · rw [if_neg hg]
          by_cases hz : newq ≤ 0
          · rw [if_pos hz]
            intro c hc
            exact h.cart_pos c (List.mem_of_mem_filter hc)
          · rw [if_neg hz]
            intro c hc
            obtain ⟨c₀, hc₀, rfl⟩ := List.mem_map.mp hc
            by_cases hk : (c₀.id == cid && c₀.user_id == u) = true
            · rw [if_pos hk]
              simp only
              omega
            · rw [if_neg hk]
              exact h.cart_pos c₀ hc₀
  · unfold update_cart_quantity_with_stock_check
    cases hfind : db.cart_items.find? (fun x => x.id == cid && x.user_id == u) with
    | none => exact h.avail_nonneg
    | some ci =>
      dsimp only
      cases hfind2 : db.menu_items.find? (fun mi => mi.id == ci.menu_item_id) with
      | none => exact h.avail_nonneg
      | some mi =>
        dsimp only
        have hcmem : ci ∈ db.cart_items := List.mem_of_find?_eq_some hfind
        have hcpos : 0 < ci.quantity := h.cart_pos ci hcmem
        have hmiid : mi.id = ci.menu_item_id := by simpa using List.find?_some hfind2
        by_cases hg : (newq - ci.quantity > 0 && mi.quantity_available < newq - ci.quantity) = true
        · rw [if_pos hg]
          exact h.avail_nonneg
        · rw [if_neg hg]
          simp only [Bool.and_eq_true, decide_eq_true_eq, not_and, gt_iff_lt, not_lt] at hg
          by_cases hz : newq ≤ 0
          · rw [if_pos hz]
            intro m hm
            obtain ⟨m₀, hm₀, rfl⟩ := List.mem_map.mp hm
            by_cases hk : m₀.id = ci.menu_item_id
            · rw [if_pos (by simpa using hk)]
              simp only
              have := h.avail_nonneg m₀ hm₀
              omega
            · rw [if_neg (by simpa using hk)]
              exact h.avail_nonneg m₀ hm₀
          · rw [if_neg hz]
            intro m hm
            obtain ⟨m₀, hm₀, rfl⟩ := List.mem_map.mp hm
            by_cases hk : m₀.id = ci.menu_item_id
            · have hm₀mi : m₀ = mi := by
                apply List.inj_on_of_nodup_map h.wf.menu_nodup hm₀
                  (List.mem_of_find?_eq_some hfind2)
                rw [hk, hmiid]
              subst hm₀mi
              rw [if_pos (by simpa using hk)]
              simp only
              have := h.avail_nonneg m₀ hm₀
              omega
            · rw [if_neg (by simpa using hk)]
              exact h.avail_nonneg m₀ hm₀

theorem Good_remove (db : DB) (u cid : Nat) (h : Good db) :
    Good (remove_from_cart_with_quantity_restore db u cid).1 := by
  refine ⟨WF_remove db u cid h.wf, ?_, ?_⟩
  · unfold remove_from_cart_with_quantity_restore
    cases hfind : db.cart_items.find? (fun x => x.id == cid && x.user_id == u) with
    | none => exact h.cart_pos
    | some ci =>
      dsimp only
      cases hfind2 : db.menu_items.find? (fun mi => mi.id == ci.menu_item_id) with
      | none => exact h.cart_pos
      | some mi =>
        dsimp only
        intro c hc
        exact h.cart_pos c (List.mem_of_mem_filter hc)
  · unfold remove_from_cart_with_quantity_restore
    cases hfind : db.cart_items.find? (fun x => x.id == cid && x.user_id == u) with
    | none => exact h.avail_nonneg
    | some ci =>
      dsimp only
      cases hfind2 : db.menu_items.find? (fun mi => mi.id == ci.menu_item_id) with
      | none => exact h.avail_nonneg
      | some mi =>
        dsimp only
        have hcpos : 0 < ci.quantity := h.cart_pos ci (List.mem_of_find?_eq_some hfind)
        intro m hm
        obtain ⟨m₀, hm₀, rfl⟩ := List.mem_map.mp hm
        by_cases hk : m₀.id = ci.menu_item_id
        · rw [if_pos (by simpa using hk)]
          simp only
          have := h.avail_nonneg m₀ hm₀
          omega
        · rw [if_neg (by simpa using hk)]
          exact h.avail_nonneg m₀ hm₀

theorem Good_checkout (db : DB) (u : Nat) (h : Good db) :
    Good (place_order_with_cart_clear db u).1 := by
  refine ⟨WF_checkout db u h.wf, ?_, ?_⟩
  · unfold place_order_with_cart_clear
    by_cases hlen : (db.cart_items.filter (fun ci => ci.user_id == u)).length = 0
    · rw [if_pos hlen]
      exact h.cart_pos
    · rw [if_neg hlen]
      intro c hc
      exact h.cart_pos c (List.mem_of_mem_filter hc)
  · unfold place_order_with_cart_clear
    by_cases hlen : (db.cart_items.filter (fun ci => ci.user_id == u)).length = 0
    · rw [if_pos hlen]
      exact h.avail_nonneg
    · rw [if_neg hlen]
      exact h.avail_nonneg

/-! ### Sequence-level preservation -/

theorem WF_applyOp (db : DB) (op : Op) (h : WF db) : WF (applyOp db op) := by
  cases op with
  | addItem u i q => exact WF_add db u i q h
  | setQuantity u c q => exact WF_update db u c q h
  | removeItem u c => exact WF_remove db u c h
  | checkout u => exact WF_checkout db u h

theorem Good_applyOp (db : DB) (op : Op) (hok : op.okInput) (h : Good db) :
    Good (applyOp db op) := by
  cases op with
  | addItem u i q => exact Good_add db u i q hok h
  | setQuantity u c q => exact Good_update db u c q h
  | removeItem u c => exact Good_remove db u c h
  | checkout u => exact Good_checkout db u h

theorem stockMeasure_applyOp (db : DB) (op : Op) (h : WF db) (j : Nat) :
    stockMeasure (applyOp db op) j = stockMeasure db j := by
  cases op with
  | addItem u i q => exact stockMeasure_add db u i q h j
  | setQuantity u c q => exact stockMeasure_update db u c q h j
  | removeItem u c => exact stockMeasure_remove db u c h j
  | checkout u => exact stockMeasure_checkout db u h j

theorem WF_applyOps (db : DB) (ops : List Op) (h : WF db) : WF (applyOps db ops) := by
  induction ops generalizing db with
  | nil => exact h
  | cons op rest ih => exact ih (applyOp db op) (WF_applyOp db op h)

theorem Good_applyOps (db : DB) (ops : List Op) (hok : ∀ op ∈ ops, op.okInput)
    (h : Good db) : Good (applyOps db ops) := by
  induction ops generalizing db with
  | nil => exact h
  | cons op rest ih =>
      exact ih (applyOp db op) (fun o ho => hok o (List.mem_cons_of_mem op ho))
        (Good_applyOp db op (hok op (List.mem_cons_self op rest)) h)

theorem stockMeasure_applyOps (db : DB) (ops : List Op) (h : WF db) (j : Nat) :
    stockMeasure (applyOps db ops) j = stockMeasure db j := by
  induction ops generalizing db with
  | nil => rfl
  | cons op rest ih =>
      rw [show applyOps db (op :: rest) = applyOps (applyOp db op) rest from rfl,
        ih (applyOp db op) (WF_applyOp db op h), stockMeasure_applyOp db op h j]

/-! ### Claim theorems -/

/-- C1: Conservation invariant — starting from a well-formed state with no
cart lines and no order lines, after every sequence of `addItem`,
`setQuantity`, `removeItem` and `checkout` calls, each menu item's
`quantity_available` plus the total quantity reserved in carts plus the
total quantity sold in non-cancelled orders equals its initial stocked
quantity. -/
theorem conservation_invariant (db0 : DB) (ops : List Op) (h : WF db0)
    (hcart : db0.cart_items = []) (hoi : db0.order_items = [])
    (m : MenuItem) (hm : m ∈ db0.menu_items) :
    availOf (applyOps db0 ops) m.id + cartTotal (applyOps db0 ops) m.id
      + soldTotal (applyOps db0 ops) m.id = m.quantity_available := by
  show stockMeasure (applyOps db0 ops) m.id = m.quantity_available
  rw [stockMeasure_applyOps db0 ops h m.id]
  unfold stockMeasure availOf cartTotal soldTotal cartSum soldSum
  rw [hcart, hoi, isum_nil, isum_nil, add_zero, add_zero]
  unfold availSum
  exact isum_key_unique h.menu_nodup hm
    (fun x => x.quantity_available)

theorem conservation_invariant_witness :
    availOf (applyOps dbW [Op.addItem 1 10 3, Op.checkout 1]) 10
      + cartTotal (applyOps dbW [Op.addItem 1 10 3, Op.checkout 1]) 10
      + soldTotal (applyOps dbW [Op.addItem 1 10 3, Op.checkout 1]) 10 = 5 :=
  conservation_invariant dbW [Op.addItem 1 10 3, Op.checkout 1]
    ⟨by decide, by decide, by decide, by decide, by decide, by decide, by decide⟩
    rfl rfl { id := 10, name := "X", price := 4, quantity_available := 5 }
    (List.mem_singleton.mpr rfl)

/-- C2: No oversell — from a healthy state, after any sequence of
interface calls the available quantity of every menu item stays
non-negative; and an `addItem` asking for more than the available quantity
returns the insufficient-stock failure (carrying the actual remaining
amount) and leaves the state unchanged. -/
theorem no_oversell (db0 : DB) (ops : List Op) (hg : Good db0)
    (hok : ∀ op ∈ ops, op.okInput) :
    (∀ m ∈ (applyOps db0 ops).menu_items, 0 ≤ m.quantity_available)
    ∧ (∀ (db : DB) (u i : Nat) (q : Int) (mi : MenuItem),
        db.menu_items.find? (fun x => x.id == i) = some mi →
        mi.quantity_available < q →
        add_to_cart_with_quantity_check db u i q
          = (db, [("success", .jbool false),
              ("error", .jstr ("Not enough stock available. Only "
                ++ toString mi.quantity_available ++ " items left."))])) := by
  constructor
  · exact (Good_applyOps db0 ops hok hg).avail_nonneg
  · intro db u i q mi hfind hlt
    unfold add_to_cart_with_quantity_check
    rw [hfind]
    dsimp only
    rw [if_pos hlt]

theorem no_oversell_witness :
    (∀ m ∈ (applyOps dbW []).menu_items, 0 ≤ m.quantity_available)
    ∧ add_to_cart_with_quantity_check dbW 2 10 9
      = (dbW, [("success", .jbool false),
          ("error", .jstr ("Not enough stock available. Only "
            ++ toString (5 : Int) ++ " items left."))]) := by
  have h := no_oversell dbW []
    ⟨⟨by decide, by decide, by decide, by decide, by decide, by decide, by decide⟩,
      by decide, by decide⟩
    (fun op hop => absurd hop (List.not_mem_nil op))
  exact ⟨h.1, h.2 dbW 2 10 9
    { id := 10, name := "X", price := 4, quantity_available := 5 }
    (by decide) (by decide)⟩

/-- C10: Cart-line positivity — from a healthy state, after any sequence of
interface calls (with `addItem` constrained to positive quantities), every
stored cart line has a strictly positive quantity. -/
theorem cart_line_positivity (db0 : DB) (ops : List Op) (hg : Good db0)
    (hok : ∀ op ∈ ops, op.okInput) :
    ∀ c ∈ (applyOps db0 ops).cart_items, 0 < c.quantity :=
  (Good_applyOps db0 ops hok hg).cart_pos

theorem cart_line_positivity_witness :
    0 < ({ id := 100, user_id := 1, menu_item_id := 10, quantity := 3 } : CartItem).quantity :=
  cart_line_positivity dbW [Op.addItem 1 10 3]
    ⟨⟨by decide, by decide, by decide, by decide, by decide, by decide, by decide⟩,
      by decide, by decide⟩
    (by
      intro op hop
      rw [List.mem_singleton] at hop
      subst hop
      exact (show (0 : Int) < 3 by decide))
    { id := 100, user_id := 1, menu_item_id := 10, quantity := 3 }
    (by decide)

/-- Looking up `success` in a result object that starts with that field. -/
theorem lookup_success_cons (v : JVal) (rest : JObj) :
    List.lookup "success" (("success", v) :: rest) = some v := by
  simp [List.lookup]

/-- C7: Checkout frame condition — `place_order_with_cart_clear` never
modifies `menu_items`, whether it fails or succeeds. -/
theorem checkout_preserves_menu (db : DB) (u : Nat) :
    (place_order_with_cart_clear db u).1.menu_items = db.menu_items := by
  unfold place_order_with_cart_clear
  by_cases hlen : (db.cart_items.filter (fun ci => ci.user_id == u)).length = 0
  · rw [if_pos hlen]
  · rw [if_neg hlen]

/-- C8: Failure atomicity — whenever one of the four operations returns a
result whose `success` field is `false`, the database state is returned
exactly as it was. -/
theorem failure_atomicity (db : DB) (u i cid : Nat) (q newq : Int) :
    ((add_to_cart_with_quantity_check db u i q).2.lookup "success"
        = some (.jbool false) → (add_to_cart_with_quantity_check db u i q).1 = db)
    ∧ ((update_cart_quantity_with_stock_check db u cid newq).2.lookup "success"
        = some (.jbool false) → (update_cart_quantity_with_stock_check db u cid newq).1 = db)
    ∧ ((remove_from_cart_with_quantity_restore db u cid).2.lookup "success"
        = some (.jbool false) → (remove_from_cart_with_quantity_restore db u cid).1 = db)
    ∧ ((place_order_with_cart_clear db u).2.lookup "success"
        = some (.jbool false) → (place_order_with_cart_clear db u).1 = db) := by
  refine ⟨?_, ?_, ?_, ?_⟩
  · unfold add_to_cart_with_quantity_check
    cases hfind : db.menu_items.find? (fun mi => mi.id == i) with
    | none => intro _; rfl
    | some mi =>
      dsimp only
      by_cases hstock : mi.quantity_available < q
      · rw [if_pos hstock]
        intro _
        rfl
      · rw [if_neg hstock]
        by_cases hconf : db.cart_items.any
            (fun ci => ci.user_id == u && ci.menu_item_id == i) = true
        · rw [if_pos hconf, if_pos hconf]
          dsimp only
          rw [lookup_success_cons]
          intro hcontra
          simp at hcontra
        · rw [if_neg hconf, if_neg hconf]
          dsimp only
          rw [lookup_success_cons]
          intro hcontra
          simp at hcontra
  · unfold update_cart_quantity_with_stock_check
    cases hfind : db.cart_items.find? (fun x => x.id == cid && x.user_id == u) with
    | none => intro _; rfl
    | some ci =>
      dsimp only
      cases hfind2 : db.menu_items.find? (fun mi => mi.id == ci.menu_item_id) with
      | none => intro _; rfl
      | some mi =>
        dsimp only
        by_cases hg : (newq - ci.quantity > 0 && mi.quantity_available < newq - ci.quantity) = true
        · rw [if_pos hg]
          intro _
          rfl
        · rw [if_neg hg]
          by_cases hz : newq ≤ 0
          · rw [if_pos hz]
            dsimp only
            rw [lookup_success_cons]
            intro hcontra
            simp at hcontra
          · rw [if_neg hz]
            dsimp only
            rw [lookup_success_cons]
            intro hcontra
            simp at hcontra
  · unfold remove_from_cart_with_quantity_restore
    cases hfind : db.cart_items.find? (fun x => x.id == cid && x.user_id == u) with
    | none => intro _; rfl
    | some ci =>
      dsimp only
      cases hfind2 : db.menu_items.find? (fun mi => mi.id == ci.menu_item_id) with
      | none => intro _; rfl
      | some mi =>
        dsimp only
        rw [lookup_success_cons]
        intro hcontra
        simp at hcontra
  · unfold place_order_with_cart_clear
    by_cases hlen : (db.cart_items.filter (fun ci => ci.user_id == u)).length = 0
    · rw [if_pos hlen]
      intro _
      rfl
    · rw [if_neg hlen]
      dsimp only
      rw [lookup_success_cons]
      intro hcontra
      simp at hcontra

theorem failure_atomicity_witness :
    (add_to_cart_with_quantity_check dbW 1 99 5).1 = dbW :=
  (failure_atomicity dbW 1 99 0 5 0).1 (by decide)

/-- C9: Ownership isolation — `setQuantity` and `removeItem` called with a
cart line id owned by a different user fail with the not-found error and
change nothing. -/
theorem ownership_isolation (db : DB) (u cid : Nat) (newq : Int)
    (hnd : (db.cart_items.map CartItem.id).Nodup)
    (c : CartItem) (hc : c ∈ db.cart_items) (hid : c.id = cid)
    (hus : c.user_id ≠ u) :
    update_cart_quantity_with_stock_check db u cid newq
      = (db, [("success", .jbool false), ("error", .jstr "Cart item not found")])
    ∧ remove_from_cart_with_quantity_restore db u cid
      = (db, [("success", .jbool false), ("error", .jstr "Cart item not found")]) := by
  have hnone : db.cart_items.find? (fun x => x.id == cid && x.user_id == u) = none := by
    rw [List.find?_eq_none]
    intro x hx hp
    have hxid : x.id = cid := by simpa using ((Bool.and_eq_true _ _).mp hp).1
    have hxu : x.user_id = u := by simpa using ((Bool.and_eq_true _ _).mp hp).2
    have hxc : x = c := List.inj_on_of_nodup_map hnd hx hc (hxid.trans hid.symm)
    exact hus (hxc ▸ hxu)
  constructor
  · unfold update_cart_quantity_with_stock_check
    rw [hnone]
  · unfold remove_from_cart_with_quantity_restore
    rw [hnone]

theorem ownership_isolation_witness :
    update_cart_quantity_with_stock_check dbW2 2 50 4
      = (dbW2, [("success", .jbool false), ("error", .jstr "Cart item not found")])
    ∧ remove_from_cart_with_quantity_restore dbW2 2 50
      = (dbW2, [("success", .jbool false), ("error", .jstr "Cart item not found")]) :=
  ownership_isolation dbW2 2 50 4 (by decide)
    { id := 50, user_id := 1, menu_item_id := 10, quantity := 2 }
    (by decide) (by decide) (by decide)

/-- C5: `setQuantity` with a non-positive target is removal — the final
state equals that of `removeItem`, and when the owner-checked join finds
the line, the line is deleted and its full quantity is restored. -/
theorem setQuantity_nonpos_removes (db : DB) (u cid : Nat) (newq : Int)
    (hnew : newq ≤ 0)
    (hnd : (db.menu_items.map MenuItem.id).Nodup)
    (hpos : ∀ c ∈ db.cart_items, 0 < c.quantity) :
    (update_cart_quantity_with_stock_check db u cid newq).1
      = (remove_from_cart_with_quantity_restore db u cid).1
    ∧ (∀ ci mi,
        db.cart_items.find? (fun x => x.id == cid && x.user_id == u) = some ci →
        db.menu_items.find? (fun x => x.id == ci.menu_item_id) = some mi →
        (∀ c ∈ (update_cart_quantity_with_stock_check db u cid newq).1.cart_items,
          ¬ (c.id = cid ∧ c.user_id = u))
        ∧ availOf (update_cart_quantity_with_stock_check db u cid newq).1 ci.menu_item_id
            = availOf db ci.menu_item_id + ci.quantity) := by
  constructor
  · unfold update_cart_quantity_with_stock_check remove_from_cart_with_quantity_restore
    cases hfind : db.cart_items.find? (fun x => x.id == cid && x.user_id == u) with
    | none => rfl
    | some ci =>
      dsimp only
      cases hfind2 : db.menu_items.find? (fun mi => mi.id == ci.menu_item_id) with
      | none => rfl
      | some mi =>
        dsimp only
        have hcpos : 0 < ci.quantity := hpos ci (List.mem_of_find?_eq_some hfind)
        have hg : ¬ ((newq - ci.quantity > 0
            && mi.quantity_available < newq - ci.quantity) = true) := by
          simp only [Bool.and_eq_true, decide_eq_true_eq, gt_iff_lt, not_and, not_lt]
          intro hd
          omega
        rw [if_neg hg, if_pos hnew]
  · intro ci mi hfind hfind2
    have hcpos : 0 < ci.quantity := hpos ci (List.mem_of_find?_eq_some hfind)
    have hg : ¬ ((newq - ci.quantity > 0
        && mi.quantity_available < newq - ci.quantity) = true) := by
      simp only [Bool.and_eq_true, decide_eq_true_eq, gt_iff_lt, not_and, not_lt]
      intro hd
      omega
    have hmem2 : mi ∈ db.menu_items := List.mem_of_find?_eq_some hfind2
    have hmi2 : mi.id = ci.menu_item_id := by simpa using List.find?_some hfind2
    constructor
    · unfold update_cart_quantity_with_stock_check
      rw [hfind]
      dsimp only
      rw [hfind2]
      dsimp only
      rw [if_neg hg, if_pos hnew]
      intro c hc hcontra
      have hpred := (List.mem_filter.mp hc).2
      obtain ⟨h1, h2⟩ := hcontra
      simp [h1, h2] at hpred
    · unfold update_cart_quantity_with_stock_check
      rw [hfind]
      dsimp only
      rw [hfind2]
      dsimp only
      rw [if_neg hg, if_pos hnew]
      unfold availOf
      dsimp only
      rw [availSum_map_add db.menu_items hnd hmem2 hmi2 ci.quantity ci.menu_item_id,
        if_pos rfl]

theorem setQuantity_nonpos_removes_witness :
    (update_cart_quantity_with_stock_check dbW2 1 50 0).1
      = (remove_from_cart_with_quantity_restore dbW2 1 50).1
    ∧ (∀ c ∈ (update_cart_quantity_with_stock_check dbW2 1 50 0).1.cart_items,
        ¬ (c.id = 50 ∧ c.user_id = 1))
    ∧ availOf (update_cart_quantity_with_stock_check dbW2 1 50 0).1 10
        = availOf dbW2 10 + 2 := by
  have h := setQuantity_nonpos_removes dbW2 1 50 0 (by decide) (by decide) (by decide)
  have h2 := h.2 { id := 50, user_id := 1, menu_item_id := 10, quantity := 2 }
    { id := 10, name := "X", price := 4, quantity_available := 5 }
    (by decide) (by decide)
  exact ⟨h.1, h2.1, h2.2⟩

/-- C3: Functional correctness of `addItem` with a positive quantity —
missing item fails with the not-found error; short stock fails with the
insufficient-stock error carrying the remaining amount; otherwise the
item's availability drops by exactly the requested quantity (other items
untouched), the cart line is created with that quantity or incremented by
it, and the result reports the resulting cart-line quantity and the
remaining stock. -/
theorem addItem_correct (db : DB) (u i : Nat) (q : Int) (hq : 0 < q) (h : WF db) :
    (db.menu_items.find? (fun x => x.id == i) = none →
      add_to_cart_with_quantity_check db u i q
        = (db, [("success", .jbool false), ("error", .jstr "Menu item not found")]))
    ∧ (∀ mi, db.menu_items.find? (fun x => x.id == i) = some mi →
        mi.quantity_available < q →
        add_to_cart_with_quantity_check db u i q
          = (db, [("success", .jbool false),
              ("error", .jstr ("Not enough stock available. Only "
                ++ toString mi.quantity_available ++ " items left."))]))
    ∧ (∀ mi, db.menu_items.find? (fun x => x.id == i) = some mi →
        ¬ mi.quantity_available < q →
        availOf (add_to_cart_with_quantity_check db u i q).1 i = availOf db i - q
        ∧ (∀ j, j ≠ i →
            availOf (add_to_cart_with_quantity_check db u i q).1 j = availOf db j)
        ∧ (db.cart_items.find? (fun x => x.user_id == u && x.menu_item_id == i) = none →
            (add_to_cart_with_quantity_check db u i q).1.cart_items
              = db.cart_items
                ++ [{ id := db.next_cart_id, user_id := u, menu_item_id := i, quantity := q }])
        ∧ (∀ c, db.cart_items.find?
              (fun x => x.user_id == u && x.menu_item_id == i) = some c →
            ∃ c' ∈ (add_to_cart_with_quantity_check db u i q).1.cart_items,
              c'.id = c.id ∧ c'.user_id = u ∧ c'.menu_item_id = i
                ∧ c'.quantity = c.quantity + q)
        ∧ (add_to_cart_with_quantity_check db u i q).2
            = [("success", .jbool true),
               ("message", .jstr (mi.name ++ " added to cart successfully!")),
               ("new_quantity", .jint (cartQty db u i + q)),
               ("remaining_stock", .jint (mi.quantity_available - q))]) := by
  refine ⟨?_, ?_, ?_⟩
  · intro hnone
    unfold add_to_cart_with_quantity_check
    rw [hnone]
  · intro mi hfind hstock
    unfold add_to_cart_with_quantity_check
    rw [hfind]
    dsimp only
    rw [if_pos hstock]
  · intro mi hfind hstock
    have hmem : mi ∈ db.menu_items := List.mem_of_find?_eq_some hfind
    have hmi : mi.id = i := by simpa using List.find?_some hfind
    refine ⟨?_, ?_, ?_, ?_, ?_⟩
    · unfold add_to_cart_with_quantity_check
      rw [hfind]
      dsimp only
      rw [if_neg hstock]
      unfold availOf
      dsimp only
      rw [availSum_map_sub db.menu_items h.menu_nodup hmem hmi q i, if_pos rfl]
    · intro j hj
      unfold add_to_cart_with_quantity_check
      rw [hfind]
      dsimp only
      rw [if_neg hstock]
      unfold availOf
      dsimp only
      rw [availSum_map_sub db.menu_items h.menu_nodup hmem hmi q j, if_neg hj,
        sub_zero]
    · intro hcnone
      unfold add_to_cart_with_quantity_check
      rw [hfind]
      dsimp only
      rw [if_neg hstock]
      have hconf : db.cart_items.any
          (fun ci => ci.user_id == u && ci.menu_item_id == i) = false := by
        rw [List.any_eq_false]
        intro x hx hp
        rw [List.find?_eq_none] at hcnone
        exact hcnone x hx hp
      rw [hconf]
      dsimp only
      rw [if_neg Bool.false_ne_true, hcnone]
      dsimp only
      rw [zero_add]
    · intro c hcfind
      unfold add_to_cart_with_quantity_check
      rw [hfind]
      dsimp only
      rw [if_neg hstock]
      have hcmem : c ∈ db.cart_items := List.mem_of_find?_eq_some hcfind
      have hcp := List.find?_some hcfind
      have hcu : c.user_id = u := by
        simpa using ((Bool.and_eq_true _ _).mp hcp).1
      have hci : c.menu_item_id = i := by
        simpa using ((Bool.and_eq_true _ _).mp hcp).2
      have hconf : db.cart_items.any
          (fun ci => ci.user_id == u && ci.menu_item_id == i) = true :=
        List.any_eq_true.mpr ⟨c, hcmem, hcp⟩
      rw [hconf]
      dsimp only
      refine ⟨{ c with quantity := c.quantity + q }, ?_, rfl, hcu, hci, rfl⟩
      refine List.mem_map.mpr ⟨c, hcmem, ?_⟩
      simp [hcp]
    · unfold add_to_cart_with_quantity_check
      rw [hfind]
      dsimp only
      rw [if_neg hstock]
      rfl

theorem addItem_correct_witness :
    availOf (add_to_cart_with_quantity_check dbW 1 10 3).1 10 = availOf dbW 10 - 3
    ∧ (add_to_cart_with_quantity_check dbW 1 10 3).1.cart_items
        = dbW.cart_items
          ++ [{ id := 100, user_id := 1, menu_item_id := 10, quantity := 3 }]
    ∧ (add_to_cart_with_quantity_check dbW 1 10 3).2
        = [("success", .jbool true),
           ("message", .jstr ("X" ++ " added to cart successfully!")),
           ("new_quantity", .jint (cartQty dbW 1 10 + 3)),
           ("remaining_stock", .jint ((5 : Int) - 3))] := by
  have h := (addItem_correct dbW 1 10 3 (by decide)
    ⟨by decide, by decide, by decide, by decide, by decide, by decide, by decide⟩).2.2
    { id := 10, name := "X", price := 4, quantity_available := 5 }
    (by decide) (by decide)
  exact ⟨h.1, h.2.2.1 (by decide), h.2.2.2.2⟩

/-- C4 counterexample: at a concrete state a successful `setQuantity` call
returns a payload with no `old_quantity` field at all (the old quantity, 2,
appears nowhere in it), refuting the claim that the success result reports
the old quantity. -/
theorem setQuantity_result_omits_old_quantity :
    (update_cart_quantity_with_stock_check dbW2 1 50 3).2.lookup "success"
        = some (.jbool true)
    ∧ (update_cart_quantity_with_stock_check dbW2 1 50 3).2.lookup "old_quantity" = none
    ∧ (update_cart_quantity_with_stock_check dbW2 1 50 3).2
        = [("success", .jbool true),
           ("message", .jstr "X quantity updated successfully!"),
           ("new_quantity", .jint 3),
           ("remaining_stock", .jint 4)] := by
  refine ⟨?_, ?_, ?_⟩ <;> decide

/-- C4 (amended): `setQuantity` with a positive target on an owned cart
line — on a positive difference exceeding stock it fails with the
insufficient-stock error carrying the additional units available and
changes nothing; otherwise it sets the line to the new quantity, moves the
item's availability by minus the difference, and reports the new quantity
and the updated remaining stock (the old quantity is not reported). -/
theorem setQuantity_correct (db : DB) (u cid : Nat) (newq : Int)
    (hnewpos : 0 < newq) (h : WF db)
    (ci : CartItem)
    (hfind : db.cart_items.find? (fun x => x.id == cid && x.user_id == u) = some ci)
    (mi : MenuItem)
    (hfind2 : db.menu_items.find? (fun x => x.id == ci.menu_item_id) = some mi) :
    (newq - ci.quantity > 0 → mi.quantity_available < newq - ci.quantity →
      update_cart_quantity_with_stock_check db u cid newq
        = (db, [("success", .jbool false),
            ("error", .jstr ("Not enough stock available. Only "
              ++ toString mi.quantity_available ++ " items left."))]))
    ∧ (¬ (newq - ci.quantity > 0 ∧ mi.quantity_available < newq - ci.quantity) →
        (∃ c' ∈ (update_cart_quantity_with_stock_check db u cid newq).1.cart_items,
          c'.id = ci.id ∧ c'.user_id = ci.user_id ∧ c'.menu_item_id = ci.menu_item_id
            ∧ c'.quantity = newq)
        ∧ availOf (update_cart_quantity_with_stock_check db u cid newq).1 ci.menu_item_id
            = availOf db ci.menu_item_id - (newq - ci.quantity)
        ∧ (∀ j, j ≠ ci.menu_item_id →
            availOf (update_cart_quantity_with_stock_check db u cid newq).1 j
              = availOf db j)
        ∧ (update_cart_quantity_with_stock_check db u cid newq).2
            = [("success", .jbool true),
               ("message", .jstr (mi.name ++ " quantity updated successfully!")),
               ("new_quantity", .jint newq),
               ("remaining_stock",
                 .jint (mi.quantity_available - (newq - ci.quantity)))]) := by
  have hcmem : ci ∈ db.cart_items := List.mem_of_find?_eq_some hfind
  have hcp := List.find?_some hfind
  have hcid : ci.id = cid := by simpa using ((Bool.and_eq_true _ _).mp hcp).1
  have hcu : ci.user_id = u := by simpa using ((Bool.and_eq_true _ _).mp hcp).2
  have hmem2 : mi ∈ db.menu_items := List.mem_of_find?_eq_some hfind2
  have hmi2 : mi.id = ci.menu_item_id := by simpa using List.find?_some hfind2
  have hz : ¬ newq ≤ 0 := not_le.mpr hnewpos
  constructor
  · intro hdpos hshort
    unfold update_cart_quantity_with_stock_check
    rw [hfind]
    dsimp only
    rw [hfind2]
    dsimp only
    rw [if_pos (by simp only [Bool.and_eq_true, decide_eq_true_eq]; exact ⟨hdpos, hshort⟩)]
  · intro hok
    have hg : ¬ ((newq - ci.quantity > 0
        && mi.quantity_available < newq - ci.quantity) = true) := by
      simp only [Bool.and_eq_true, decide_eq_true_eq]
      exact hok
    refine ⟨?_, ?_, ?_, ?_⟩
    · unfold update_cart_quantity_with_stock_check
      rw [hfind]
      dsimp only
      rw [hfind2]
      dsimp only
      rw [if_neg hg, if_neg hz]
      refine ⟨{ ci with quantity := newq }, ?_, rfl, rfl, rfl, rfl⟩
      refine List.mem_map.mpr ⟨ci, hcmem, ?_⟩
      simp [hcid, hcu]
    · unfold update_cart_quantity_with_stock_check
      rw [hfind]
      dsimp only
      rw [hfind2]
      dsimp only
      rw [if_neg hg, if_neg hz]
      unfold availOf
      dsimp only
      rw [availSum_map_sub db.menu_items h.menu_nodup hmem2 hmi2
        (newq - ci.quantity) ci.menu_item_id, if_pos rfl]
    · intro j hj
      unfold update_cart_quantity_with_stock_check
      rw [hfind]
      dsimp only
      rw [hfind2]
      dsimp only
      rw [if_neg hg, if_neg hz]
      unfold availOf
      dsimp only
      rw [availSum_map_sub db.menu_items h.menu_nodup hmem2 hmi2
        (newq - ci.quantity) j, if_neg hj, sub_zero]
    · unfold update_cart_quantity_with_stock_check
      rw [hfind]
      dsimp only
      rw [hfind2]
      dsimp only
      rw [if_neg hg, if_neg hz]

theorem setQuantity_correct_witness :
    availOf (update_cart_quantity_with_stock_check dbW2 1 50 3).1 10
        = availOf dbW2 10 - ((3 : Int) - 2)
    ∧ (update_cart_quantity_with_stock_check dbW2 1 50 3).2
        = [("success", .jbool true),
           ("message", .jstr ("X" ++ " quantity updated successfully!")),
           ("new_quantity", .jint 3),
           ("remaining_stock", .jint ((5 : Int) - ((3 : Int) - 2)))] := by
  have h := (setQuantity_correct dbW2 1 50 3 (by decide)
    ⟨by decide, by decide, by decide, by decide, by decide, by decide, by decide⟩
    { id := 50, user_id := 1, menu_item_id := 10, quantity := 2 } (by decide)
    { id := 10, name := "X", price := 4, quantity_available := 5 } (by decide)).2
    (by decide)
  exact ⟨h.2.1, h.2.2.2⟩

/-- A flatMap whose pieces are all singletons is a map. -/
theorem flatMap_one {α β : Type} {l : List α} {g : α → List β} {k : α → β}
    (h : ∀ x ∈ l, g x = [k x]) :
    l.flatMap g = l.map k := by
  induction l with
  | nil => rfl
  | cons a t ih =>
      rw [List.flatMap_cons, h a (List.mem_cons_self a t),
        ih (fun x hx => h x (List.mem_cons_of_mem a hx)), List.map_cons]
      rfl

theorem menuPrice_eq_itemOf (db : DB) (i : Nat) :
    menuPrice db i = (itemOf db i).price := by
  unfold menuPrice itemOf
  cases db.menu_items.find? (fun m => m.id == i) <;> rfl

/-- C6: Functional correctness of `checkout` — an empty cart fails with the
empty-cart error and changes nothing; otherwise exactly one pending order
is created whose total is the sum over the user's cart lines of quantity
times the current menu price, one order line is created per cart line
copying quantity and price, the user's cart lines are deleted (other
users' lines kept), and the result reports the new order id and the
total. -/
theorem checkout_correct (db : DB) (u : Nat) (h : WF db) :
    (db.cart_items.filter (fun ci => ci.user_id == u) = [] →
      place_order_with_cart_clear db u
        = (db, [("success", .jbool false), ("error", .jstr "Cart is empty")]))
    ∧ (db.cart_items.filter (fun ci => ci.user_id == u) ≠ [] →
        (place_order_with_cart_clear db u).1.orders
          = db.orders
            ++ [{ id := db.next_order_id, user_id := u,
                  total_amount :=
                    ((db.cart_items.filter (fun ci => ci.user_id == u)).map
                      (fun ci => (ci.quantity : Rat) * menuPrice db ci.menu_item_id)).sum,
                  status := "pending", payment_status := "pending" }]
        ∧ (place_order_with_cart_clear db u).1.order_items
          = db.order_items
            ++ (db.cart_items.filter (fun ci => ci.user_id == u)).map
                (fun ci => { order_id := db.next_order_id,
                             menu_item_id := ci.menu_item_id,
                             quantity := ci.quantity,
                             price := menuPrice db ci.menu_item_id })
        ∧ (∀ c ∈ (place_order_with_cart_clear db u).1.cart_items, c.user_id ≠ u)
        ∧ (∀ c ∈ db.cart_items, c.user_id ≠ u →
            c ∈ (place_order_with_cart_clear db u).1.cart_items)
        ∧ (place_order_with_cart_clear db u).2
          = [("success", .jbool true),
             ("message", .jstr "Order placed successfully!"),
             ("order_id", .jint db.next_order_id),
             ("total_amount",
               .jrat (((db.cart_items.filter (fun ci => ci.user_id == u)).map
                 (fun ci => (ci.quantity : Rat) * menuPrice db ci.menu_item_id)).sum)),
             ("item_count",
               .jint ((db.cart_items.filter (fun ci => ci.user_id == u)).length : Int))]) := by
  have hflat : (db.cart_items.filter (fun ci => ci.user_id == u)).flatMap (fun ci =>
      (db.menu_items.filter (fun mi => mi.id == ci.menu_item_id)).map (fun mi => (ci, mi)))
      = (db.cart_items.filter (fun ci => ci.user_id == u)).map
          (fun ci => (ci, itemOf db ci.menu_item_id)) := by
    apply flatMap_one
    intro ci hci
    obtain ⟨m, hm, hmid⟩ := h.cart_ref ci (List.mem_filter.mp hci).1
    have hfs : db.menu_items.filter (fun mi => mi.id == ci.menu_item_id) = [m] := by
      rw [← hmid]
      exact filter_key_singleton h.menu_nodup hm
    have hfd : db.menu_items.find? (fun mi => mi.id == ci.menu_item_id) = some m := by
      rw [← hmid]
      exact find?_key_unique h.menu_nodup hm
    rw [hfs, List.map_cons, List.map_nil]
    unfold itemOf
    rw [hfd]
    rfl
  have htotal : (((db.cart_items.filter (fun ci => ci.user_id == u)).flatMap (fun ci =>
      (db.menu_items.filter (fun mi => mi.id == ci.menu_item_id)).map
        (fun mi => (ci, mi)))).map (fun p => (p.1.quantity : Rat) * p.2.price)).sum
      = ((db.cart_items.filter (fun ci => ci.user_id == u)).map
          (fun ci => (ci.quantity : Rat) * menuPrice db ci.menu_item_id)).sum := by
    rw [hflat, List.map_map]
    congr 1
    apply List.map_congr_left
    intro ci _
    show (ci.quantity : Rat) * (itemOf db ci.menu_item_id).price
      = (ci.quantity : Rat) * menuPrice db ci.menu_item_id
    rw [menuPrice_eq_itemOf]
  constructor
  · intro hempty
    unfold place_order_with_cart_clear
    rw [if_pos (by rw [hempty]; rfl)]
  · intro hne
    have hlen : ¬ (db.cart_items.filter (fun ci => ci.user_id == u)).length = 0 := by
      intro hl
      exact hne (List.length_eq_zero.mp hl)
    refine ⟨?_, ?_, ?_, ?_, ?_⟩
    · unfold place_order_with_cart_clear
      rw [if_neg hlen]
      dsimp only
      rw [htotal]
    · unfold place_order_with_cart_clear
      rw [if_neg hlen]
      dsimp only
      congr 1
      rw [hflat, List.map_map]
      apply List.map_congr_left
      intro ci _
      show ({ order_id := db.next_order_id, menu_item_id := ci.menu_item_id,
              quantity := ci.quantity, price := (itemOf db ci.menu_item_id).price } : OrderItem)
        = { order_id := db.next_order_id, menu_item_id := ci.menu_item_id,
            quantity := ci.quantity, price := menuPrice db ci.menu_item_id }
      rw [menuPrice_eq_itemOf]
    · unfold place_order_with_cart_clear
      rw [if_neg hlen]
      intro c hc
      have hp := (List.mem_filter.mp hc).2
      simp only [Bool.not_eq_true', beq_eq_false_iff_ne, ne_eq] at hp
      exact hp
    · unfold place_order_with_cart_clear
      rw [if_neg hlen]
      intro c hc hcu
      exact List.mem_filter.mpr ⟨hc, by simp [hcu]⟩
    · unfold place_order_with_cart_clear
      rw [if_neg hlen]
      dsimp only
      rw [htotal]

theorem checkout_correct_witness :
    (place_order_with_cart_clear dbW2 1).1.orders
      = dbW2.orders
        ++ [{ id := 200, user_id := 1,
              total_amount := ((dbW2.cart_items.filter (fun ci => ci.user_id == 1)).map
                (fun ci => (ci.quantity : Rat) * menuPrice dbW2 ci.menu_item_id)).sum,
              status := "pending", payment_status := "pending" }]
    ∧ (place_order_with_cart_clear dbW2 1).1.order_items
      = dbW2.order_items
        ++ (dbW2.cart_items.filter (fun ci => ci.user_id == 1)).map
            (fun ci => { order_id := 200, menu_item_id := ci.menu_item_id,
                         quantity := ci.quantity, price := menuPrice dbW2 ci.menu_item_id })
    ∧ (∀ c ∈ (place_order_with_cart_clear dbW2 1).1.cart_items, c.user_id ≠ 1) := by
  have h := (checkout_correct dbW2 1
    ⟨by decide, by decide, by decide, by decide, by decide, by decide, by decide⟩).2
    (by decide)
  exact ⟨h.1, h.2.1, h.2.2.1⟩
